import Mathlib

/-!
Shallow embedding of the transcription job-pipeline
(`davidbmar/transcription-sqs-spot-s3`): the queue-metrics store
(`src/queue_metrics.py`), the autoscaler target calculation
(`scripts/scaling_cron.py` / `scripts/scaling_lambda.py`), the chunked
resumable transcription engine (`src/transcriber.py`) and the worker
job-processing boundary (`src/transcription_worker.py`).

Timestamps in audio segments are modelled as rationals, pending minutes as
rationals, instance counts as integers (the Python values are floats/ints);
the S3 object store is modelled explicitly as state threaded through the
functions that read and write it.
-/

set_option allowUnsafeReducibility true

attribute [semireducible] Rat.mul Rat.inv Rat.add Rat.sub Rat.neg

namespace Scaling

/-- Configuration of `TranscriptionScaler` (`scaling_cron.py` constructor /
`scaling_lambda.py` module constants): `min_instances`/`max_instances` come
from the CLI (defaults 0 and 10), the thresholds are fixed in `__init__`:
`minutes_per_instance_hour = 60`, `scale_up_threshold = 30`,
`scale_down_threshold = 10`. -/
structure ScalerConfig where
  min_instances : ℤ
  max_instances : ℤ
  minutes_per_instance_hour : ℚ
  scale_up_threshold : ℚ
  scale_down_threshold : ℚ
deriving DecidableEq

/-- The default configuration: `min_instances=0`, `max_instances=10`,
`minutes_per_instance_hour=60`, `scale_up_threshold=30`,
`scale_down_threshold=10` (constructor defaults of `scaling_cron.py`,
identical to the constants of `scaling_lambda.py`). -/
def defaultScalerConfig : ScalerConfig :=
  { min_instances := 0
    max_instances := 10
    minutes_per_instance_hour := 60
    scale_up_threshold := 30
    scale_down_threshold := 10 }

/-- `TranscriptionScaler.calculate_needed_instances` (`scaling_cron.py`
lines 198-220; textually the same function appears in `scaling_lambda.py`
lines 142-164 with the module constants):

```
if pending_minutes <= 0: return 0
needed_instances = math.ceil(pending_minutes / self.minutes_per_instance_hour)
if pending_minutes > self.scale_up_threshold:
    needed_instances = max(needed_instances, current_instances + 1)
elif pending_minutes < self.scale_down_threshold and current_instances > 0:
    needed_instances = min(needed_instances, current_instances - 1)
else:
    needed_instances = current_instances
needed_instances = max(self.min_instances, min(self.max_instances, needed_instances))
return needed_instances
```
-/
def calculate_needed_instances (c : ScalerConfig) (pending_minutes : ℚ)
    (current_instances : ℤ) : ℤ :=
  if pending_minutes ≤ 0 then 0
  else
    let needed : ℤ := (pending_minutes / c.minutes_per_instance_hour).ceil
    let needed : ℤ :=
      if pending_minutes > c.scale_up_threshold then
        max needed (current_instances + 1)
      else if pending_minutes < c.scale_down_threshold ∧ 0 < current_instances then
        min needed (current_instances - 1)
      else
        current_instances
    max c.min_instances (min c.max_instances needed)

end Scaling

namespace Metrics

/-- The queue-metrics document (`queue-stats.json`): fields
`total_minutes_pending` (a float), `job_count` (an int) and `last_updated`
(a timestamp string).  A JSON document may carry further keys;
`update_stats` reads the whole document, mutates the three known keys in
place and writes the whole dict back, so any other keys survive a round
trip.  Those other keys are modelled by `extra`. -/
structure QueueMetrics where
  total_minutes_pending : ℚ
  job_count : ℤ
  last_updated : ℕ
  extra : List (String × String)
deriving DecidableEq

/-- The default document returned by `get_current_stats` when
`queue-stats.json` does not exist (`queue_metrics.py` lines 46-52):
`total_minutes_pending = 0.0`, `job_count = 0`, `last_updated = now`. -/
def defaultStats (now : ℕ) : QueueMetrics :=
  { total_minutes_pending := 0
    job_count := 0
    last_updated := now
    extra := [] }

/-- `QueueMetricsManager.get_current_stats` (`queue_metrics.py` lines
33-55).  The stored document is `some d` when `queue-stats.json` exists
and `none` when S3 answers `NoSuchKey`; in the latter case the default
(zero) document is returned instead of raising. -/
def get_current_stats (doc : Option QueueMetrics) (now : ℕ) : QueueMetrics :=
  match doc with
  | some d => d
  | none => defaultStats now

/-- `QueueMetricsManager.update_stats` (`queue_metrics.py` lines 57-90):
read the current stats, apply the two deltas floored at zero
(`max(0.0, ... + minutes_delta)`, `max(0, ... + job_count_delta)`),
refresh `last_updated`, write the document back.  The returned value is
the document written to S3. -/
def update_stats (doc : Option QueueMetrics) (now : ℕ)
    (minutes_delta : ℚ) (job_count_delta : ℤ) : QueueMetrics :=
  let cur := get_current_stats doc now
  { cur with
    total_minutes_pending := max 0 (cur.total_minutes_pending + minutes_delta)
    job_count := max 0 (cur.job_count + job_count_delta)
    last_updated := now }

/-- `QueueMetricsManager.add_job` (`queue_metrics.py` lines 92-103):
`minutes = estimated_duration_seconds / 60.0`;
`update_stats(minutes_delta=minutes, job_count_delta=1)`. -/
def add_job (doc : Option QueueMetrics) (now : ℕ)
    (estimated_duration_seconds : ℤ) : QueueMetrics :=
  update_stats doc now ((estimated_duration_seconds : ℚ) / 60) 1

/-- `QueueMetricsManager.complete_job` (`queue_metrics.py` lines 105-116):
`update_stats(minutes_delta=-minutes, job_count_delta=-1)`. -/
def complete_job (doc : Option QueueMetrics) (now : ℕ)
    (actual_duration_seconds : ℤ) : QueueMetrics :=
  update_stats doc now (-((actual_duration_seconds : ℚ) / 60)) (-1)

/-- `QueueMetricsManager.remove_job` (`queue_metrics.py` lines 118-129):
identical to `complete_job` but fed the estimated duration. -/
def remove_job (doc : Option QueueMetrics) (now : ℕ)
    (estimated_duration_seconds : ℤ) : QueueMetrics :=
  update_stats doc now (-((estimated_duration_seconds : ℚ) / 60)) (-1)

/-- One call against the queue-metrics store: the three derived accessors
of `QueueMetricsManager`. -/
inductive MetricsOp where
  | addJob (estimated_duration_seconds : ℤ)
  | completeJob (actual_duration_seconds : ℤ)
  | removeJob (estimated_duration_seconds : ℤ)
deriving DecidableEq

/-- Apply one `MetricsOp` to the stored document, returning the document
written back to S3. -/
def applyOp (doc : Option QueueMetrics) (now : ℕ) : MetricsOp → QueueMetrics
  | .addJob s => add_job doc now s
  | .completeJob s => complete_job doc now s
  | .removeJob s => remove_job doc now s

/-- Run a sequence of metrics calls (each tagged with the wall-clock time
at which it runs); after each call the written document is the one the
next call reads. -/
def runOps (doc : Option QueueMetrics) (ops : List (MetricsOp × ℕ)) :
    Option QueueMetrics :=
  ops.foldl (fun d p => some (applyOp d p.2 p.1)) doc

/-- The non-negativity invariant of the metrics document. -/
def Nonneg (m : QueueMetrics) : Prop :=
  0 ≤ m.total_minutes_pending ∧ 0 ≤ m.job_count

instance (m : QueueMetrics) : Decidable (Nonneg m) :=
  inferInstanceAs (Decidable (_ ∧ _))

/-- Non-negativity of the store: a missing document is vacuously fine. -/
def NonnegStore : Option QueueMetrics → Prop
  | some m => Nonneg m
  | none => True

instance : (d : Option QueueMetrics) → Decidable (NonnegStore d)
  | some _ => inferInstanceAs (Decidable (Nonneg _))
  | none => inferInstanceAs (Decidable True)

end Metrics

namespace Engine

/-- A word-level entry of an aligned segment (`{start, end, word}`); the
Python dict key `end` is a reserved word in Lean and is modelled as
`stop`. -/
structure Word where
  start : ℚ
  stop : ℚ
  word : String
deriving DecidableEq

/-- One transcription segment (`{start, end, text, words}`). -/
structure Segment where
  start : ℚ
  stop : ℚ
  text : String
  words : List Word
deriving DecidableEq

/-- The merged transcript document written to
`transcripts/<video_id>/full_transcript.json` (`transcriber.py` lines
302-308 and 535-541): `{segments, language, video_id, transcribed_at}`.
`video_id` is an optional string in Python; `None` is modelled as `""`
(both are falsy).  `transcribed_at` is an abstract timestamp. -/
structure Transcript where
  segments : List Segment
  language : String
  video_id : String
  transcribed_at : ℕ
deriving DecidableEq

/-- The slice of the object store under `transcripts/<video_id>/`:
per-chunk results at `segments/chunk_<NNNN>.json` (an association list
keyed by chunk index) and the optional merged transcript at
`full_transcript.json`. -/
structure Store where
  chunkResults : List (ℕ × List Segment)
  fullTranscript : Option Transcript
deriving DecidableEq

/-- The store of a fresh job: no chunk results, no merged transcript. -/
def emptyStore : Store :=
  { chunkResults := [], fullTranscript := none }

/-- `s3.put_object` at `transcripts/<vid>/segments/chunk_<i>.json`
(`transcriber.py` lines 290-296 and 519-526): overwrite the object if the
key exists, create it otherwise. -/
def putChunk (st : Store) (i : ℕ) (segs : List Segment) : Store :=
  if (st.chunkResults.lookup i).isSome then
    { st with
      chunkResults := st.chunkResults.map fun p => if p.1 = i then (i, segs) else p }
  else
    { st with chunkResults := st.chunkResults ++ [(i, segs)] }

/-- `Transcriber.load_transcript_from_s3` (`transcriber.py` lines
327-350): `None` when no bucket is configured or the key is missing. -/
def load_transcript_from_s3 (s3Bucket : Bool) (st : Store) : Option Transcript :=
  if s3Bucket then st.fullTranscript else none

/-- `Transcriber.load_segment_from_s3` (`transcriber.py` lines 352-376):
`None` when no bucket is configured or the key is missing. -/
def load_segment_from_s3 (s3Bucket : Bool) (st : Store) (i : ℕ) :
    Option (List Segment) :=
  if s3Bucket then st.chunkResults.lookup i else none

/-- `Transcriber.get_completed_segments` (`transcriber.py` lines 378-412):
list the chunk indices persisted under the job's `segments/` prefix and
return them sorted ascending (`return sorted(completed)`); `[]` when no
bucket is configured. -/
def get_completed_segments (s3Bucket : Bool) (st : Store) : List ℕ :=
  if s3Bucket then
    List.insertionSort (· ≤ ·) (st.chunkResults.map Prod.fst)
  else []

/-- Shift a word's timestamps by the chunk's offset on the global
timeline (`word["start"] += chunk_start_time`, same for `end`). -/
def shiftWord (off : ℚ) (w : Word) : Word :=
  { w with start := w.start + off, stop := w.stop + off }

/-- Shift a segment's timestamps (and those of its words) by the chunk's
offset (`transcriber.py` lines 276-283 and 505-513). -/
def shiftSegment (off : ℚ) (s : Segment) : Segment :=
  { s with
    start := s.start + off
    stop := s.stop + off
    words := s.words.map (shiftWord off) }

/-- The globally-timestamped segments produced for chunk `i`: the opaque
model call `self.model.transcribe` + `whisperx.align` on the chunk file
(modelled by `model : ℕ → List Segment`, chunk-local timestamps),
shifted by `chunk_start_time = i * self.chunk_size`. -/
def chunkSegments (model : ℕ → List Segment) (chunk_size : ℚ) (i : ℕ) :
    List Segment :=
  (model i).map (shiftSegment ((i : ℚ) * chunk_size))

/-- The comparison `sorted(all_segments, key=lambda x: x["start"])` sorts
by: `start` of the left is at most `start` of the right. -/
def SegLE (a b : Segment) : Prop :=
  a.start ≤ b.start

instance : DecidableRel SegLE :=
  fun a b => inferInstanceAs (Decidable (a.start ≤ b.start))

instance : IsTotal Segment SegLE :=
  ⟨fun a b => le_total a.start b.start⟩

instance : IsTrans Segment SegLE :=
  ⟨fun _ _ _ h1 h2 => le_trans h1 h2⟩

/-- `sorted(all_segments, key=lambda x: x["start"])`: Python's `sorted`
is a stable sort; it is modelled by the (stable) insertion sort on the
`SegLE` preorder, which computes the same list. -/
def sortSegments (l : List Segment) : List Segment :=
  List.insertionSort SegLE l

/-- The state of the per-chunk loop of `transcribe_audio` /
`resume_transcription`: the accumulated `all_segments`, the object store,
and the chunk indices that have been sent to the model so far in this
call (the chunk work performed). -/
structure LoopState where
  all_segments : List Segment
  store : Store
  transcribed : List ℕ
deriving DecidableEq

/-- One iteration of the chunk loop (`transcriber.py` lines 242-300 and
473-533) for chunk `i`: transcribe + align + shift, extend
`all_segments`, and persist the ChunkResult when `persist` holds
(`if self.s3_bucket and video_id` in `transcribe_audio`;
`if self.s3_bucket` in `resume_transcription`). -/
def processChunkStep (model : ℕ → List Segment) (chunk_size : ℚ)
    (persist : Bool) (ls : LoopState) (i : ℕ) : LoopState :=
  let segs := chunkSegments model chunk_size i
  { all_segments := ls.all_segments ++ segs
    store := if persist then putChunk ls.store i segs else ls.store
    transcribed := ls.transcribed ++ [i] }

/-- `Transcriber.transcribe_audio` (`transcriber.py` lines 204-325).
`segment_audio` splits the audio into `numChunks` fixed-size chunks
(abstracted: the audio file is represented by `numChunks` together with
the opaque per-chunk `model`).  Every chunk is transcribed in index
order; each ChunkResult is persisted when a bucket and a video id are
configured; finally the merged transcript, sorted by `start`, is written
once and returned. -/
def transcribe_audio (model : ℕ → List Segment) (chunk_size : ℚ)
    (s3Bucket : Bool) (numChunks : ℕ) (video_id language : String)
    (now : ℕ) (st : Store) : Transcript × LoopState :=
  let persist := s3Bucket && !(video_id == "")
  let ls := (List.range numChunks).foldl
    (processChunkStep model chunk_size persist)
    { all_segments := [], store := st, transcribed := [] }
  let final : Transcript :=
    { segments := sortSegments ls.all_segments
      language := language
      video_id := video_id
      transcribed_at := now }
  let st' := if persist then { ls.store with fullTranscript := some final } else ls.store
  (final, { ls with store := st' })

/-- `Transcriber.resume_transcription` (`transcriber.py` lines 414-558).
If the merged transcript already exists it is returned unchanged and
nothing else happens (lines 428-432).  Otherwise the already-persisted
ChunkResults are loaded (`if segment_data: all_segments.extend(...)` —
an absent or empty result contributes nothing), the chunks whose index is
in `completed_segments` are skipped, the remaining ones are transcribed
and persisted, and the merged transcript, sorted by `start`, is written
once and returned. -/
def resume_transcription (model : ℕ → List Segment) (chunk_size : ℚ)
    (s3Bucket : Bool) (numChunks : ℕ) (video_id language : String)
    (now : ℕ) (st : Store) : Transcript × LoopState :=
  match load_transcript_from_s3 s3Bucket st with
  | some t => (t, { all_segments := [], store := st, transcribed := [] })
  | none =>
    let completed := get_completed_segments s3Bucket st
    let loaded := completed.foldl
      (fun acc idx => acc ++ (load_segment_from_s3 s3Bucket st idx).getD []) []
    let ls := (List.range numChunks).foldl
      (fun ls i =>
        if i ∈ completed then ls
        else processChunkStep model chunk_size s3Bucket ls i)
      { all_segments := loaded, store := st, transcribed := [] }
    let final : Transcript :=
      { segments := sortSegments ls.all_segments
        language := language
        video_id := video_id
        transcribed_at := now }
    let st' := if s3Bucket then { ls.store with fullTranscript := some final } else ls.store
    (final, { ls with store := st' })

/-- The loop state of `transcribe_audio` on a fresh job interrupted
(crash / preemption) right after the ChunkResult of chunk `k` was
persisted: chunks `0..k` have been processed and checkpointed, the merged
transcript has not been written. -/
def crashState (model : ℕ → List Segment) (chunk_size : ℚ)
    (s3Bucket : Bool) (video_id : String) (k : ℕ) (st : Store) : LoopState :=
  (List.range (k + 1)).foldl
    (processChunkStep model chunk_size (s3Bucket && !(video_id == "")))
    { all_segments := [], store := st, transcribed := [] }

end Engine

namespace Worker

/-- Where (if anywhere) the processing of one claimed message fails, in
`TranscriptionWorker.process_job` (`transcription_worker.py` lines
222-320):
* `parseFailure`: `json.loads(message['Body'])` raises (or the body is not
  a dict), before any of the job fields are bound;
* `downloadFailure`: `download_audio_from_s3` raises;
* `transcriptionFailure`: `transcriber.transcribe_audio` raises
  `TranscriptionError` (the engine wraps every internal error in it);
* `uploadFailure`: `upload_transcript_to_s3` raises;
* `ok`: every step succeeds. -/
inductive JobOutcome where
  | parseFailure
  | downloadFailure
  | transcriptionFailure
  | uploadFailure
  | ok
deriving DecidableEq

/-- A call made against the `QueueMetricsManager` while processing. -/
inductive MetricsCall where
  | completeJob (seconds : ℤ)
  | removeJob (seconds : ℤ)
deriving DecidableEq

/-- How `process_job` terminates: a normal `return success` or an
exception escaping the function. -/
inductive ProcOutcome where
  | returned (success : Bool)
  | raised
deriving DecidableEq

/-- `TranscriptionWorker.process_job` (`transcription_worker.py` lines
222-320), as its termination mode plus the list of queue-metrics calls it
performs:
* success path: `complete_job(estimated_duration_seconds)`, `return True`;
* `TranscriptionError` from the engine: `remove_job(estimated)`,
  `return False` (lines 304-309);
* any other exception after the body was parsed (download, upload, ...):
  the outer handler logs and best-effort calls `remove_job(estimated)`,
  `return False` (lines 311-320);
* body-parse failure: the outer handler itself raises — its first
  statement is `logger.error(f"... job {job_id} ...")` and `job_id` was
  never bound, so a `NameError` escapes `process_job` before the
  `remove_job` attempt is reached. -/
def process_job (estimated_duration_seconds : ℤ) :
    JobOutcome → ProcOutcome × List MetricsCall
  | .parseFailure => (.raised, [])
  | .downloadFailure => (.returned false, [.removeJob estimated_duration_seconds])
  | .transcriptionFailure => (.returned false, [.removeJob estimated_duration_seconds])
  | .uploadFailure => (.returned false, [.removeJob estimated_duration_seconds])
  | .ok => (.returned true, [.completeJob estimated_duration_seconds])

/-- One iteration of the polling loop in `TranscriptionWorker.run`
(`transcription_worker.py` lines 345-368) applied to a claimed message:
`success = process_job(message)`; the message is deleted from the queue
only when `success` is truthy; an exception out of `process_job` is
caught by the loop's `except Exception` handler, which sleeps and
continues, so the message is not deleted either.  Returns
(message deleted?, metrics calls performed). -/
def runLoopIteration (estimated_duration_seconds : ℤ) (o : JobOutcome) :
    Bool × List MetricsCall :=
  match process_job estimated_duration_seconds o with
  | (.returned true, calls) => (true, calls)
  | (.returned false, calls) => (false, calls)
  | (.raised, calls) => (false, calls)

end Worker

namespace Scaling

/-- A configuration reachable through `--min-instances 1` on the
`scaling_cron.py` command line (all other values are the defaults). -/
def minOneConfig : ScalerConfig :=
  { min_instances := 1
    max_instances := 10
    minutes_per_instance_hour := 60
    scale_up_threshold := 30
    scale_down_threshold := 10 }

end Scaling

namespace Engine

/-- A concrete opaque model used to instantiate the universally
quantified theorems on a concrete input: chunk `i` yields one chunk-local
segment. -/
def exModel : ℕ → List Segment :=
  fun _ =>
    [{ start := 1/2, stop := 2, text := "hello"
       words := [{ start := 1/2, stop := 2, word := "hello" }] }]

/-- A concrete merged transcript, for instantiating theorems. -/
def exTranscript : Transcript :=
  { segments :=
      [{ start := 1/2, stop := 2, text := "hello"
         words := [{ start := 1/2, stop := 2, word := "hello" }] }]
    language := "en"
    video_id := "vid"
    transcribed_at := 3 }

/-- A store holding a completed job: the merged transcript exists. -/
def exStoreDone : Store :=
  { chunkResults := [(0, exTranscript.segments)]
    fullTranscript := some exTranscript }

end Engine

namespace Metrics

/-- A concrete stored metrics document used to instantiate theorems. -/
def exDoc : QueueMetrics :=
  { total_minutes_pending := 5
    job_count := 1
    last_updated := 7
    extra := [("source", "producer")] }

end Metrics

namespace Engine

theorem foldl_step_all_segments (model : ℕ → List Segment) (c : ℚ)
    (pers : Bool) (l : List ℕ) (ls : LoopState) :
    (l.foldl (processChunkStep model c pers) ls).all_segments
      = ls.all_segments ++ l.flatMap (chunkSegments model c) := by
  induction l generalizing ls with
  | nil => simp
  | cons i l ih =>
    rw [List.foldl_cons, ih]
    simp [processChunkStep]

theorem foldl_step_transcribed (model : ℕ → List Segment) (c : ℚ)
    (pers : Bool) (l : List ℕ) (ls : LoopState) :
    (l.foldl (processChunkStep model c pers) ls).transcribed
      = ls.transcribed ++ l := by
  induction l generalizing ls with
  | nil => simp
  | cons i l ih =>
    rw [List.foldl_cons, ih]
    simp [processChunkStep]

theorem putChunk_fullTranscript (st : Store) (i : ℕ) (segs : List Segment) :
    (putChunk st i segs).fullTranscript = st.fullTranscript := by
  unfold putChunk
  split <;> rfl

theorem foldl_step_fullTranscript (model : ℕ → List Segment) (c : ℚ)
    (pers : Bool) (l : List ℕ) (ls : LoopState) :
    (l.foldl (processChunkStep model c pers) ls).store.fullTranscript
      = ls.store.fullTranscript := by
  induction l generalizing ls with
  | nil => rfl
  | cons i l ih =>
    rw [List.foldl_cons, ih]
    cases pers <;> simp [processChunkStep, putChunk_fullTranscript]

theorem lookup_append_of_none {l₁ l₂ : List (ℕ × List Segment)} {k : ℕ}
    (h : l₁.lookup k = none) :
    (l₁ ++ l₂).lookup k = l₂.lookup k := by
  rw [List.lookup_append, h, Option.none_or]

theorem foldl_step_chunkResults (model : ℕ → List Segment) (c : ℚ)
    (l : List ℕ) (ls : LoopState) (hnd : l.Nodup)
    (hfresh : ∀ i ∈ l, ls.store.chunkResults.lookup i = none) :
    (l.foldl (processChunkStep model c true) ls).store.chunkResults
      = ls.store.chunkResults ++ l.map (fun i => (i, chunkSegments model c i)) := by
  induction l generalizing ls with
  | nil => simp
  | cons i l ih =>
    rw [List.foldl_cons]
    have hi : ls.store.chunkResults.lookup i = none :=
      hfresh i (List.mem_cons_self i l)
    have hstep : (processChunkStep model c true ls i).store.chunkResults
        = ls.store.chunkResults ++ [(i, chunkSegments model c i)] := by
      simp [processChunkStep, putChunk, hi]
    have hfresh2 : ∀ j ∈ l,
        (processChunkStep model c true ls i).store.chunkResults.lookup j = none := by
      intro j hj
      rw [hstep, lookup_append_of_none (hfresh j (List.mem_cons_of_mem i hj))]
      have hji : ¬(j == i) = true := by
        simp only [beq_iff_eq]
        intro hEq
        exact (List.nodup_cons.mp hnd).1 (hEq ▸ hj)
      simp [List.lookup, hji]
    rw [ih _ (List.nodup_cons.mp hnd).2 hfresh2, hstep]
    simp

theorem foldl_guard_skip_all (model : ℕ → List Segment) (c : ℚ)
    (pers : Bool) (completed : List ℕ) (l : List ℕ) (ls : LoopState)
    (h : ∀ i ∈ l, i ∈ completed) :
    l.foldl
        (fun ls i =>
          if i ∈ completed then ls else processChunkStep model c pers ls i)
        ls = ls := by
  induction l generalizing ls with
  | nil => rfl
  | cons i l ih =>
    rw [List.foldl_cons, if_pos (h i (List.mem_cons_self i l))]
    exact ih ls fun j hj => h j (List.mem_cons_of_mem i hj)

theorem foldl_guard_skip_none (model : ℕ → List Segment) (c : ℚ)
    (pers : Bool) (completed : List ℕ) (l : List ℕ) (ls : LoopState)
    (h : ∀ i ∈ l, i ∉ completed) :
    l.foldl
        (fun ls i =>
          if i ∈ completed then ls else processChunkStep model c pers ls i)
        ls = l.foldl (processChunkStep model c pers) ls := by
  induction l generalizing ls with
  | nil => rfl
  | cons i l ih =>
    rw [List.foldl_cons, List.foldl_cons, if_neg (h i (List.mem_cons_self i l))]
    exact ih _ fun j hj => h j (List.mem_cons_of_mem i hj)

theorem lookup_map_pair (f : ℕ → List Segment) (l : List ℕ) (i : ℕ)
    (hi : i ∈ l) :
    (l.map fun j => (j, f j)).lookup i = some (f i) := by
  induction l with
  | nil => cases hi
  | cons j l ih =>
    by_cases hij : i = j
    · subst hij
      simp [List.lookup]
    · have : i ∈ l := (List.mem_cons.mp hi).resolve_left hij
      have hb : ¬(i == j) = true := by simpa using hij
      simp [List.lookup, hb, ih this]

theorem foldl_load_eq (st : Store) (f : ℕ → List Segment) (l : List ℕ)
    (init : List Segment)
    (h : ∀ i ∈ l, st.chunkResults.lookup i = some (f i)) :
    l.foldl
        (fun acc idx => acc ++ (load_segment_from_s3 true st idx).getD [])
        init = init ++ l.flatMap f := by
  induction l generalizing init with
  | nil => simp
  | cons i l ih =>
    rw [List.foldl_cons]
    rw [ih _ fun j hj => h j (List.mem_cons_of_mem i hj)]
    simp [load_segment_from_s3, h i (List.mem_cons_self i l)]

/-- The store left behind by a crash right after the ChunkResult of chunk
`k` of a fresh job was persisted: results for exactly the chunks `0..k`,
and no merged transcript. -/
theorem crashState_store (model : ℕ → List Segment) (c : ℚ)
    (vid : String) (k : ℕ) (hvid : vid ≠ "") :
    (crashState model c true vid k emptyStore).store.chunkResults
        = (List.range (k + 1)).map (fun i => (i, chunkSegments model c i))
      ∧ (crashState model c true vid k emptyStore).store.fullTranscript = none := by
  have hb : (true && !(vid == "")) = true := by
    rw [beq_eq_false_iff_ne.mpr hvid]
    rfl
  unfold crashState
  rw [hb]
  constructor
  · rw [foldl_step_chunkResults model c (List.range (k + 1))
      { all_segments := [], store := emptyStore, transcribed := [] }
      (List.nodup_range (k + 1)) (fun i _ => rfl)]
    rfl
  · rw [foldl_step_fullTranscript]
    rfl

theorem transcribe_audio_segments (model : ℕ → List Segment) (c : ℚ)
    (s3B : Bool) (N : ℕ) (vid lang : String) (now : ℕ) (st : Store) :
    (transcribe_audio model c s3B N vid lang now st).1.segments
      = sortSegments ((List.range N).flatMap (chunkSegments model c)) := by
  have e : (transcribe_audio model c s3B N vid lang now st).1.segments
      = sortSegments
          (((List.range N).foldl
              (processChunkStep model c (s3B && !(vid == "")))
              { all_segments := [], store := st, transcribed := [] }).all_segments) := rfl
  rw [e, foldl_step_all_segments]
  simp

theorem transcribe_audio_store_chunkResults (model : ℕ → List Segment)
    (c : ℚ) (s3B : Bool) (N : ℕ) (vid lang : String) (now : ℕ) (st : Store) :
    (transcribe_audio model c s3B N vid lang now st).2.store.chunkResults
      = (((List.range N).foldl
            (processChunkStep model c (s3B && !(vid == "")))
            { all_segments := [], store := st, transcribed := [] }).store).chunkResults := by
  unfold transcribe_audio
  cases hE : (s3B && !(vid == "")) <;> simp [hE]

theorem resume_not_done (model : ℕ → List Segment) (c : ℚ) (s3B : Bool)
    (N : ℕ) (vid lang : String) (now : ℕ) (st : Store)
    (hload : load_transcript_from_s3 s3B st = none) :
    resume_transcription model c s3B N vid lang now st
      = (let completed := get_completed_segments s3B st
         let loaded := completed.foldl
           (fun acc idx => acc ++ (load_segment_from_s3 s3B st idx).getD []) []
         let ls := (List.range N).foldl
           (fun ls i =>
             if i ∈ completed then ls
             else processChunkStep model c s3B ls i)
           { all_segments := loaded, store := st, transcribed := [] }
         let final : Transcript :=
           { segments := sortSegments ls.all_segments
             language := lang
             video_id := vid
             transcribed_at := now }
         let st' := if s3B then { ls.store with fullTranscript := some final } else ls.store
         (final, { ls with store := st' })) := by
  unfold resume_transcription
  rw [hload]

theorem resume_after_crash (model : ℕ → List Segment) (c : ℚ)
    (N k : ℕ) (vid lang : String) (now : ℕ)
    (hvid : vid ≠ "") (hk : k < N) :
    (resume_transcription model c true N vid lang now
        (crashState model c true vid k emptyStore).store).2.transcribed
      = (List.range (N - (k + 1))).map (fun x => (k + 1) + x)
    ∧ (resume_transcription model c true N vid lang now
        (crashState model c true vid k emptyStore).store).1.segments
      = sortSegments ((List.range N).flatMap (chunkSegments model c)) := by
  obtain ⟨hc, hft⟩ := crashState_store model c vid k hvid
  set CS := (crashState model c true vid k emptyStore).store with hCS
  have hload : load_transcript_from_s3 true CS = none := by
    simp [load_transcript_from_s3, hft]
  have hcompleted : get_completed_segments true CS = List.range (k + 1) := by
    have e : get_completed_segments true CS
        = List.insertionSort (· ≤ ·) (CS.chunkResults.map Prod.fst) := rfl
    rw [e, hc, List.map_map]
    have e2 : (Prod.fst ∘ fun i => (i, chunkSegments model c i)) = id := rfl
    rw [e2, List.map_id]
    exact (List.sorted_le_range (k + 1)).insertionSort_eq
  have hloaded : (List.range (k + 1)).foldl
      (fun acc idx => acc ++ (load_segment_from_s3 true CS idx).getD []) []
        = (List.range (k + 1)).flatMap (chunkSegments model c) := by
    rw [foldl_load_eq CS (chunkSegments model c) _ []
        (fun i hi => by rw [hc]; exact lookup_map_pair _ _ i hi)]
    simp
  have hsplit : List.range N
      = List.range (k + 1) ++ (List.range (N - (k + 1))).map (fun x => (k + 1) + x) := by
    obtain ⟨r, rfl⟩ : ∃ r, N = (k + 1) + r := ⟨N - (k + 1), by omega⟩
    rw [Nat.add_sub_cancel_left]
    exact List.range_add (k + 1) r
  have hfold : (List.range N).foldl
      (fun ls i =>
        if i ∈ get_completed_segments true CS then ls
        else processChunkStep model c true ls i)
      { all_segments := (get_completed_segments true CS).foldl
          (fun acc idx => acc ++ (load_segment_from_s3 true CS idx).getD []) []
        store := CS, transcribed := [] }
      = ((List.range (N - (k + 1))).map (fun x => (k + 1) + x)).foldl
          (processChunkStep model c true)
          { all_segments := (List.range (k + 1)).flatMap (chunkSegments model c)
            store := CS, transcribed := [] } := by
    rw [hcompleted, hloaded, hsplit, List.foldl_append]
    rw [foldl_guard_skip_all model c true (List.range (k + 1)) _ _ (fun i hi => hi)]
    exact foldl_guard_skip_none model c true (List.range (k + 1)) _ _
      (fun i hi => by
        obtain ⟨x, _, rfl⟩ := List.mem_map.mp hi
        intro hmem
        have := List.mem_range.mp hmem
        omega)
  rw [resume_not_done model c true N vid lang now CS hload]
  simp only []
  constructor
  · have e : ((List.range N).foldl
        (fun ls i =>
          if i ∈ get_completed_segments true CS then ls
          else processChunkStep model c true ls i)
        { all_segments := (get_completed_segments true CS).foldl
            (fun acc idx => acc ++ (load_segment_from_s3 true CS idx).getD []) []
          store := CS, transcribed := [] }).transcribed
      = (List.range (N - (k + 1))).map (fun x => (k + 1) + x) := by
      rw [hfold, foldl_step_transcribed]
      simp
    exact e
  · have e : sortSegments (((List.range N).foldl
        (fun ls i =>
          if i ∈ get_completed_segments true CS then ls
          else processChunkStep model c true ls i)
        { all_segments := (get_completed_segments true CS).foldl
            (fun acc idx => acc ++ (load_segment_from_s3 true CS idx).getD []) []
          store := CS, transcribed := [] }).all_segments)
      = sortSegments ((List.range N).flatMap (chunkSegments model c)) := by
      rw [hfold, foldl_step_all_segments]
      rw [hsplit, List.flatMap_append]
    exact e

/-- C1: for every job whose merged Transcript already exists in the
object store, `resume_transcription` returns that stored Transcript
unchanged and performs no additional chunk work: no chunk is sent to the
model, and the store is returned exactly as it was (no ChunkResult
written, no merged Transcript rewritten). -/
theorem C1_resume_idempotent (model : ℕ → List Segment) (c : ℚ) (N : ℕ)
    (vid lang : String) (now : ℕ) (st : Store) (t : Transcript)
    (h : st.fullTranscript = some t) :
    (resume_transcription model c true N vid lang now st).1 = t
    ∧ (resume_transcription model c true N vid lang now st).2.store = st
    ∧ (resume_transcription model c true N vid lang now st).2.transcribed = [] := by
  have hload : load_transcript_from_s3 true st = some t := by
    simp [load_transcript_from_s3, h]
  unfold resume_transcription
  rw [hload]
  exact ⟨rfl, rfl, rfl⟩

/-- Witness for C1 at a concrete completed job. -/
theorem C1_resume_idempotent_witness :
    exStoreDone.fullTranscript = some exTranscript
    ∧ ((resume_transcription exModel 30 true 3 "vid" "en" 9 exStoreDone).1 = exTranscript
       ∧ (resume_transcription exModel 30 true 3 "vid" "en" 9 exStoreDone).2.store = exStoreDone
       ∧ (resume_transcription exModel 30 true 3 "vid" "en" 9 exStoreDone).2.transcribed = []) :=
  ⟨rfl, C1_resume_idempotent exModel 30 3 "vid" "en" 9 exStoreDone exTranscript rfl⟩

/-- C2: for every run of `transcribe_audio` or `resume_transcription`,
the returned merged Transcript's segments are sorted by start time: for
all `i`, `segments[i].start ≤ segments[i+1].start` — regardless of the
order in which chunks were transcribed or recovered from persisted
ChunkResults.  (For the pass-through branch of `resume_transcription`,
the stored merged transcript is whatever a previous run wrote, which is
sorted; this is the hypothesis `hst`.) -/
theorem C2_merged_sorted (model : ℕ → List Segment) (c : ℚ) (s3B : Bool)
    (N : ℕ) (vid lang : String) (now : ℕ) (st : Store)
    (hst : ∀ t, st.fullTranscript = some t → List.Sorted SegLE t.segments) :
    (∀ (i : ℕ)
        (h : i + 1 < (transcribe_audio model c s3B N vid lang now st).1.segments.length),
      ((transcribe_audio model c s3B N vid lang now st).1.segments.get
          ⟨i, Nat.lt_of_succ_lt h⟩).start
        ≤ ((transcribe_audio model c s3B N vid lang now st).1.segments.get
            ⟨i + 1, h⟩).start)
    ∧ (∀ (i : ℕ)
        (h : i + 1 < (resume_transcription model c s3B N vid lang now st).1.segments.length),
      ((resume_transcription model c s3B N vid lang now st).1.segments.get
          ⟨i, Nat.lt_of_succ_lt h⟩).start
        ≤ ((resume_transcription model c s3B N vid lang now st).1.segments.get
            ⟨i + 1, h⟩).start) := by
  have key : ∀ (l : List Segment), List.Sorted SegLE l →
      ∀ (i : ℕ) (h : i + 1 < l.length),
        (l.get ⟨i, Nat.lt_of_succ_lt h⟩).start ≤ (l.get ⟨i + 1, h⟩).start := by
    intro l hl i h
    exact hl.rel_get_of_lt (Fin.mk_lt_mk.mpr (Nat.lt_succ_self i))
  have hres : List.Sorted SegLE
      (resume_transcription model c s3B N vid lang now st).1.segments := by
    cases hload : load_transcript_from_s3 s3B st with
    | some t =>
      have h1 : (resume_transcription model c s3B N vid lang now st).1 = t := by
        unfold resume_transcription
        rw [hload]
      rw [h1]
      apply hst
      cases s3B with
      | false => simp [load_transcript_from_s3] at hload
      | true => simpa [load_transcript_from_s3] using hload
    | none =>
      rw [resume_not_done model c s3B N vid lang now st hload]
      exact List.sorted_insertionSort SegLE _
  constructor
  · intro i h
    refine key _ ?_ i h
    rw [transcribe_audio_segments]
    exact List.sorted_insertionSort SegLE _
  · intro i h
    exact key _ hres i h

/-- Witness for C2 at a concrete fresh job. -/
theorem C2_merged_sorted_witness :
    (∀ t, emptyStore.fullTranscript = some t → List.Sorted SegLE t.segments)
    ∧ ((∀ (i : ℕ)
          (h : i + 1 < (transcribe_audio exModel 30 true 2 "vid" "en" 9 emptyStore).1.segments.length),
        ((transcribe_audio exModel 30 true 2 "vid" "en" 9 emptyStore).1.segments.get
            ⟨i, Nat.lt_of_succ_lt h⟩).start
          ≤ ((transcribe_audio exModel 30 true 2 "vid" "en" 9 emptyStore).1.segments.get
              ⟨i + 1, h⟩).start)
      ∧ (∀ (i : ℕ)
          (h : i + 1 < (resume_transcription exModel 30 true 2 "vid" "en" 9 emptyStore).1.segments.length),
        ((resume_transcription exModel 30 true 2 "vid" "en" 9 emptyStore).1.segments.get
            ⟨i, Nat.lt_of_succ_lt h⟩).start
          ≤ ((resume_transcription exModel 30 true 2 "vid" "en" 9 emptyStore).1.segments.get
              ⟨i + 1, h⟩).start)) :=
  ⟨fun _ ht => Option.noConfusion ht,
   C2_merged_sorted exModel 30 true 2 "vid" "en" 9 emptyStore
     (fun _ ht => Option.noConfusion ht)⟩

/-- C3: after `transcribe_audio` completes on a fresh job whose audio
splits into `N` chunks, exactly `N` ChunkResults are persisted, one per
chunk index `0..N-1`; and after a crash that happened right after chunk
`k` was persisted, `resume_transcription` sends only chunks of index
`> k` to the model and produces the same final set of segments (equality
up to ordering). -/
theorem C3_checkpoint_completeness (model : ℕ → List Segment) (c : ℚ)
    (N k : ℕ) (vid lang : String) (now now2 : ℕ)
    (hvid : vid ≠ "") (hk : k < N) :
    ((transcribe_audio model c true N vid lang now emptyStore).2.store.chunkResults.map
        Prod.fst = List.range N)
    ∧ (∀ i ∈ (resume_transcription model c true N vid lang now2
          (crashState model c true vid k emptyStore).store).2.transcribed, k < i)
    ∧ ((resume_transcription model c true N vid lang now2
          (crashState model c true vid k emptyStore).store).1.segments).Perm
        ((transcribe_audio model c true N vid lang now emptyStore).1.segments) := by
  obtain ⟨ht, hs⟩ := resume_after_crash model c N k vid lang now2 hvid hk
  refine ⟨?_, ?_, ?_⟩
  · rw [transcribe_audio_store_chunkResults]
    have hb : (true && !(vid == "")) = true := by
      rw [beq_eq_false_iff_ne.mpr hvid]
      rfl
    rw [hb, foldl_step_chunkResults model c (List.range N)
        { all_segments := [], store := emptyStore, transcribed := [] }
        (List.nodup_range N) (fun i _ => rfl)]
    have e : (Prod.fst ∘ fun i => (i, chunkSegments model c i)) = id := rfl
    simp [emptyStore, e]
  · intro i hi
    rw [ht] at hi
    obtain ⟨x, _, rfl⟩ := List.mem_map.mp hi
    omega
  · rw [hs, transcribe_audio_segments]

/-- Witness for C3: three chunks, crash after chunk 1. -/
theorem C3_checkpoint_completeness_witness :
    ("vid" : String) ≠ "" ∧ 1 < 3
    ∧ (((transcribe_audio exModel 30 true 3 "vid" "en" 5 emptyStore).2.store.chunkResults.map
          Prod.fst = List.range 3)
      ∧ (∀ i ∈ (resume_transcription exModel 30 true 3 "vid" "en" 6
            (crashState exModel 30 true "vid" 1 emptyStore).store).2.transcribed, 1 < i)
      ∧ ((resume_transcription exModel 30 true 3 "vid" "en" 6
            (crashState exModel 30 true "vid" 1 emptyStore).store).1.segments).Perm
          ((transcribe_audio exModel 30 true 3 "vid" "en" 5 emptyStore).1.segments)) :=
  ⟨by decide, by decide,
   C3_checkpoint_completeness exModel 30 3 1 "vid" "en" 5 6 (by decide) (by decide)⟩

end Engine

namespace Metrics

theorem update_stats_nonneg (doc : Option QueueMetrics) (now : ℕ)
    (md : ℚ) (jd : ℤ) : Nonneg (update_stats doc now md jd) :=
  ⟨le_max_left 0 _, le_max_left 0 _⟩

theorem applyOp_nonneg (doc : Option QueueMetrics) (now : ℕ) (op : MetricsOp) :
    Nonneg (applyOp doc now op) := by
  cases op <;> exact ⟨le_max_left 0 _, le_max_left 0 _⟩

theorem runOps_nonneg (l : List (MetricsOp × ℕ)) :
    ∀ doc : Option QueueMetrics, NonnegStore doc → NonnegStore (runOps doc l) := by
  induction l with
  | nil => exact fun _ h => h
  | cons p rest ih =>
    intro doc _
    exact ih (some (applyOp doc p.2 p.1)) (applyOp_nonneg doc p.2 p.1)

/-- C4: for every sequence of `add_job` / `complete_job` / `remove_job`
calls applied to a store whose document satisfies
`total_minutes_pending ≥ 0 ∧ job_count ≥ 0`, after every single call
(i.e. after every prefix of the sequence) the stored document still
satisfies both bounds — each update is floored at zero. -/
theorem C4_metrics_never_negative (doc : Option QueueMetrics)
    (ops : List (MetricsOp × ℕ)) (h : NonnegStore doc) (n : ℕ) :
    NonnegStore (runOps doc (ops.take n)) :=
  runOps_nonneg (ops.take n) doc h

/-- Witness for C4 on a concrete three-call sequence. -/
theorem C4_metrics_never_negative_witness :
    NonnegStore (some exDoc)
    ∧ NonnegStore (runOps (some exDoc)
        ([(MetricsOp.addJob 300, 1), (MetricsOp.removeJob 600, 2),
          (MetricsOp.completeJob 9000, 3)].take 3)) :=
  ⟨by decide,
   C4_metrics_never_negative (some exDoc)
     [(MetricsOp.addJob 300, 1), (MetricsOp.removeJob 600, 2),
      (MetricsOp.completeJob 9000, 3)] (by decide) 3⟩

/-- C9: when the queue-metrics document does not exist,
`get_current_stats` returns the zero-valued document —
`total_minutes_pending = 0.0` and `job_count = 0` — instead of raising. -/
theorem C9_missing_doc_defaults (now : ℕ) :
    (get_current_stats none now).total_minutes_pending = 0
    ∧ (get_current_stats none now).job_count = 0 :=
  ⟨rfl, rfl⟩

/-- C10: `update_stats` touches only `total_minutes_pending`, `job_count`
and `last_updated` — every other key of the document (`extra`) survives
unchanged; and on a document satisfying the non-negativity invariant, a
zero-delta update leaves `total_minutes_pending` and `job_count` exactly
unchanged. -/
theorem C10_update_stats_frame (d : QueueMetrics) (now : ℕ) (md : ℚ) (jd : ℤ)
    (h1 : 0 ≤ d.total_minutes_pending) (h2 : 0 ≤ d.job_count) :
    (update_stats (some d) now md jd).extra = d.extra
    ∧ (update_stats (some d) now 0 0).total_minutes_pending = d.total_minutes_pending
    ∧ (update_stats (some d) now 0 0).job_count = d.job_count := by
  refine ⟨rfl, ?_, ?_⟩
  · show max 0 (d.total_minutes_pending + 0) = d.total_minutes_pending
    rw [add_zero]
    exact max_eq_right h1
  · show max 0 (d.job_count + 0) = d.job_count
    rw [add_zero]
    exact max_eq_right h2

/-- Witness for C10 at a concrete document carrying an extra key. -/
theorem C10_update_stats_frame_witness :
    (0 ≤ exDoc.total_minutes_pending ∧ 0 ≤ exDoc.job_count)
    ∧ ((update_stats (some exDoc) 8 3 2).extra = exDoc.extra
      ∧ (update_stats (some exDoc) 8 0 0).total_minutes_pending
          = exDoc.total_minutes_pending
      ∧ (update_stats (some exDoc) 8 0 0).job_count = exDoc.job_count) :=
  ⟨by decide, C10_update_stats_frame exDoc 8 3 2 (by decide) (by decide)⟩

end Metrics

namespace Scaling

/-- C5 as stated is false: the guard `if pending_minutes <= 0: return 0`
runs before the clamp to `[min_instances, max_instances]`, so with
`min_instances = 1` (reachable via `--min-instances 1`) and
`pending_minutes = 0` the function returns `0`, below the interval. -/
theorem C5_counterexample :
    calculate_needed_instances minOneConfig 0 0 = 0
    ∧ ¬ (minOneConfig.min_instances ≤ calculate_needed_instances minOneConfig 0 0) := by
  decide

/-- C5 amended: whenever `pending_minutes > 0` (and the configured bounds
are consistent) the result is clamped into
`[min_instances, max_instances]`; for `pending_minutes ≤ 0` the function
returns `0` unconditionally, bypassing the clamp (inside the interval
only when `min_instances ≤ 0 ≤ max_instances`). -/
theorem C5_clamped (c : ScalerConfig) (p : ℚ) (cur : ℤ)
    (hmm : c.min_instances ≤ c.max_instances) :
    (0 < p →
      c.min_instances ≤ calculate_needed_instances c p cur
      ∧ calculate_needed_instances c p cur ≤ c.max_instances)
    ∧ (p ≤ 0 → calculate_needed_instances c p cur = 0) := by
  constructor
  · intro hp
    unfold calculate_needed_instances
    rw [if_neg (not_le.mpr hp)]
    exact ⟨le_max_left _ _, max_le hmm (min_le_left _ _)⟩
  · intro hp
    unfold calculate_needed_instances
    rw [if_pos hp]

/-- Witness for C5 (amended) at the default configuration. -/
theorem C5_clamped_witness :
    defaultScalerConfig.min_instances ≤ defaultScalerConfig.max_instances
    ∧ ((0 < (5 : ℚ) →
        defaultScalerConfig.min_instances
            ≤ calculate_needed_instances defaultScalerConfig 5 3
        ∧ calculate_needed_instances defaultScalerConfig 5 3
            ≤ defaultScalerConfig.max_instances)
      ∧ ((5 : ℚ) ≤ 0 → calculate_needed_instances defaultScalerConfig 5 3 = 0)) :=
  ⟨by decide, C5_clamped defaultScalerConfig 5 3 (by decide)⟩

/-- C6 as stated is false: in the scale-down branch the code computes
`min(needed, current - 1)`, a cap, not a floor — with 5 pending minutes
and 3 running instances it proposes 1, dropping two instances at once. -/
theorem C6_counterexample :
    calculate_needed_instances defaultScalerConfig 5 3 = 1
    ∧ calculate_needed_instances defaultScalerConfig 5 3 < 3 - 1 := by
  decide

/-- C6 amended: for `current_instances = N > 0` and
`0 < pending_minutes < scale_down_threshold` (with consistent thresholds
and `min_instances ≤ N - 1`), the returned target is at most `N - 1` —
the scale-down branch caps the target one below the current count but
gives no lower bound, so one invocation may drop more than one
instance. -/
theorem C6_scale_down_cap (c : ScalerConfig) (p : ℚ) (cur : ℤ)
    (hp0 : 0 < p) (hpd : p < c.scale_down_threshold)
    (hdu : c.scale_down_threshold ≤ c.scale_up_threshold)
    (hcur : 0 < cur) (hmin : c.min_instances ≤ cur - 1) :
    calculate_needed_instances c p cur ≤ cur - 1 := by
  have hnotup : ¬ (p > c.scale_up_threshold) :=
    not_lt.mpr (le_of_lt (lt_of_lt_of_le hpd hdu))
  unfold calculate_needed_instances
  rw [if_neg (not_le.mpr hp0)]
  simp only [hnotup, hpd, hcur, and_self, if_true, if_false, ite_true, ite_false]
  exact max_le hmin (le_trans (min_le_right _ _) (min_le_right _ _))

/-- Witness for C6 (amended): 5 pending minutes, 3 instances. -/
theorem C6_scale_down_cap_witness :
    (0 < (5 : ℚ) ∧ (5 : ℚ) < defaultScalerConfig.scale_down_threshold
      ∧ defaultScalerConfig.scale_down_threshold
          ≤ defaultScalerConfig.scale_up_threshold
      ∧ (0 : ℤ) < 3 ∧ defaultScalerConfig.min_instances ≤ 3 - 1)
    ∧ calculate_needed_instances defaultScalerConfig 5 3 ≤ 3 - 1 :=
  ⟨by decide,
   C6_scale_down_cap defaultScalerConfig 5 3 (by decide) (by decide)
     (by decide) (by decide) (by decide)⟩

/-- C7 as stated is false: with the spec's configuration the code returns
`min(ceil(5/60), 3-1) = min(1, 2) = 1`, not 2. -/
theorem C7_counterexample :
    (3 : ℤ) ≤ defaultScalerConfig.max_instances
    ∧ calculate_needed_instances defaultScalerConfig 5 3 = 1
    ∧ calculate_needed_instances defaultScalerConfig 5 3 ≠ 2 := by
  decide

/-- C7 amended: with `scale_down_threshold = 10`,
`minutes_per_instance_hour = 60`, `min_instances = 0` and any
`max_instances ≥ 3` (≥ 1 suffices),
`calculate_needed_instances 5 3 = 1`. -/
theorem C7_scenario (mx : ℤ) (hmx : 3 ≤ mx) :
    calculate_needed_instances
      { min_instances := 0, max_instances := mx
        minutes_per_instance_hour := 60
        scale_up_threshold := 30, scale_down_threshold := 10 } 5 3 = 1 := by
  unfold calculate_needed_instances
  norm_num
  rw [show ((1 : ℚ) / 12).ceil = 1 from by decide]
  omega

/-- Witness for C7 (amended) at `max_instances = 10`. -/
theorem C7_scenario_witness :
    (3 : ℤ) ≤ 10
    ∧ calculate_needed_instances
        { min_instances := 0, max_instances := 10
          minutes_per_instance_hour := 60
          scale_up_threshold := 30, scale_down_threshold := 10 } 5 3 = 1 :=
  ⟨by decide, C7_scenario 10 (by decide)⟩

end Scaling

namespace Worker

/-- C8 as stated is false on one failure mode: for a message whose body
cannot be parsed, `process_job` fails (it raises, the message is not
deleted) but no `remove_job` call is made — the outer error handler's
first statement references the unbound `job_id` and the resulting
`NameError` escapes before the `remove_job` attempt. -/
theorem C8_counterexample :
    (process_job 300 JobOutcome.parseFailure).1 ≠ ProcOutcome.returned true
    ∧ (runLoopIteration 300 JobOutcome.parseFailure).1 = false
    ∧ (runLoopIteration 300 JobOutcome.parseFailure).2 = [] := by
  decide

/-- C8 amended: the claimed message is deleted iff `process_job` returns
success; on a download, transcription or upload failure `process_job`
returns failure, the message is not deleted, and `remove_job` is called
with the job's estimated duration; on a message-parse failure
`process_job` raises out of its own error handler — the message is still
not deleted, but no `remove_job` call is made. -/
theorem C8_ack_iff_success (d : ℤ) (o : JobOutcome) :
    ((runLoopIteration d o).1 = true ↔ (process_job d o).1 = ProcOutcome.returned true)
    ∧ ((process_job d o).1 = ProcOutcome.returned false →
        (process_job d o).2 = [MetricsCall.removeJob d])
    ∧ (o = JobOutcome.parseFailure →
        (process_job d o).1 = ProcOutcome.raised ∧ (process_job d o).2 = []) := by
  cases o <;> simp [process_job, runLoopIteration]

/-- Witness for C8 (amended) at a concrete failed upload. -/
theorem C8_ack_iff_success_witness :
    ((runLoopIteration 300 JobOutcome.uploadFailure).1 = true
        ↔ (process_job 300 JobOutcome.uploadFailure).1 = ProcOutcome.returned true)
    ∧ ((process_job 300 JobOutcome.uploadFailure).1 = ProcOutcome.returned false →
        (process_job 300 JobOutcome.uploadFailure).2 = [MetricsCall.removeJob 300])
    ∧ (JobOutcome.uploadFailure = JobOutcome.parseFailure →
        (process_job 300 JobOutcome.uploadFailure).1 = ProcOutcome.raised
        ∧ (process_job 300 JobOutcome.uploadFailure).2 = []) :=
  C8_ack_iff_success 300 JobOutcome.uploadFailure

end Worker
